import Mathlib

set_option maxRecDepth 100000

/-!
# A verification of the `ldparser` linker-script library

This file embeds the library shallowly in Lean 4.  The nom-based parser is
modelled over `List Char`: a parser is a function from the remaining input to
a `ParseRes` value.  nom's `Err::Error` (a recoverable mismatch, from which
`alt` may try the next alternative) is `recov`, nom's `Err::Failure`
(produced by `cut`, aborting all alternatives) is `fatal`, and a Rust
`panic!`/`unimplemented!` reached inside a parser or a generator is the
distinguished outcome `vio` (for generators, `none`).  Recursive grammar
rules take an explicit fuel argument so that every definition is a
computable structural recursion; fuel exhaustion surfaces as `recov`.

Modules `sections.rs`, `script.rs`, `generator.rs`, `builder.rs` and
`lib.rs` are translated from the source.  The crate's remaining modules
(`whitespace.rs`, `idents.rs`, `numbers.rs`, `expressions.rs`,
`statements.rs`, `commands.rs`, macro `wsc!`) are not part of the available
sources; the corresponding definitions below are modelled from the
specification and say so in their doc comments.
-/

namespace Ld

/-- Remaining parser input. -/
abbrev Inp := List Char

/-- Result of running a nom-style parser: success with remaining input,
recoverable error (`Err::Error`), committed failure (`Err::Failure`,
produced by `cut`), or a Rust panic (`vio`). -/
inductive ParseRes (α : Type) where
  | ok (rest : Inp) (val : α)
  | recov
  | fatal
  | vio
deriving Repr

/-- A parser over the remaining input. -/
abbrev P (α : Type) := Inp → ParseRes α

/-- Sequencing: run the continuation on the parsed value, propagating
errors, committed failures and panics. -/
def pbind {α β : Type} (r : ParseRes α) (k : Inp → α → ParseRes β) : ParseRes β :=
  match r with
  | .ok rest a => k rest a
  | .recov => .recov
  | .fatal => .fatal
  | .vio => .vio

/-- `map` on the parsed value. -/
def pmap {α β : Type} (f : α → β) (r : ParseRes α) : ParseRes β :=
  pbind r (fun rest a => .ok rest (f a))

/-- nom `alt` with two alternatives: the second runs only after a
recoverable error of the first. -/
def alt2 {α : Type} (p q : P α) : P α := fun s =>
  match p s with
  | .recov => q s
  | r => r

/-- nom `alt` over a list of alternatives. -/
def altL {α : Type} : List (P α) → P α
  | [] => fun _ => .recov
  | p :: ps => alt2 p (altL ps)

/-- nom `tag`, returning the matched text. -/
def tagS (t : String) : P String := fun s =>
  if t.data.isPrefixOf s then .ok (s.drop t.data.length) t else .recov

/-- nom `opt`: a recoverable error becomes `none` without consuming input;
committed failures still propagate. -/
def optP {α : Type} (p : P α) : P (Option α) := fun s =>
  match p s with
  | .ok rest a => .ok rest (some a)
  | .recov => .ok s none
  | .fatal => .fatal
  | .vio => .vio

/-- nom `cut`: turn a recoverable error into a committed failure. -/
def cutP {α : Type} (p : P α) : P α := fun s =>
  match p s with
  | .recov => .fatal
  | r => r

/-- Longest run of characters satisfying `f`; fails (recoverably) if the
run would be empty. -/
def takeWhile1P (f : Char → Bool) : P String := fun s =>
  match s.takeWhile f with
  | [] => .recov
  | run => .ok (s.drop run.length) (String.mk run)

/-- `many0`-style repetition, bounded by fuel.  A recoverable error of the
element parser ends the loop; a committed failure or panic propagates. -/
def many0F {α : Type} : Nat → P α → P (List α)
  | 0, _ => fun _ => .recov
  | f + 1, p => fun s =>
    match p s with
    | .recov => .ok s []
    | .fatal => .fatal
    | .vio => .vio
    | .ok rest a =>
      match many0F f p rest with
      | .ok rest2 l => .ok rest2 (a :: l)
      | e => e

/-- nom `many1`: at least one element, then as in `many0F`. -/
def many1F {α : Type} (f : Nat) (p : P α) : P (List α) := fun s =>
  pbind (p s) (fun rest a => pmap (fun l => a :: l) (many0F f p rest))

/-- ASCII whitespace recognised by the skipper. -/
def isWsChar (c : Char) : Bool :=
  c = ' ' || c = '\t' || c = '\n' || c = '\r'

/-- Drop the body of a `//` line comment (everything before the next
newline; the newline itself is left for the whitespace skipper). -/
def dropLine : Inp → Inp :=
  List.dropWhile (fun c => !(c = '\n'))

/-- Scan for the closing `*/` of a block comment, returning the input after
it, or `none` if the comment is unterminated. -/
def dropBlock : Inp → Option Inp
  | [] => none
  | '*' :: cs =>
    match cs with
    | '/' :: rest => some rest
    | _ => dropBlock cs
  | _ :: cs => dropBlock cs

/-- Modelled from the spec: the whitespace/comment skipper of the missing
`whitespace.rs` (`opt_space`).  It consumes zero or more runs of ASCII
whitespace interleaved with `//` line comments and `/* */` block comments
and never fails; an unterminated block comment is left unconsumed.  Each
step consumes at least one character, so fuel `s.length` always
suffices. -/
def optSpace : Nat → Inp → Inp
  | 0, s => s
  | f + 1, s =>
    match s with
    | [] => []
    | c :: cs =>
      if isWsChar c then optSpace f cs
      else if c = '/' then
        if cs.headD ' ' = '/' then optSpace f (dropLine cs.tail)
        else if cs.headD ' ' = '*' then
          match dropBlock cs.tail with
          | some rest => optSpace f rest
          | none => c :: cs
        else c :: cs
      else c :: cs

/-- The skipper applied with always-sufficient fuel. -/
def optSpaceL (s : Inp) : Inp := optSpace s.length s

/-- Recogniser for inputs made only of whitespace and comments: exactly the
inputs the skipper consumes entirely.  Mirrors the recursion of
`optSpace`. -/
def wsOnly : Nat → Inp → Bool
  | 0, s => s.isEmpty
  | f + 1, s =>
    match s with
    | [] => true
    | c :: cs =>
      if isWsChar c then wsOnly f cs
      else if c = '/' then
        if cs.headD ' ' = '/' then wsOnly f (dropLine cs.tail)
        else if cs.headD ' ' = '*' then
          match dropBlock cs.tail with
          | some rest => wsOnly f rest
          | none => false
        else false
      else false

/-- Modelled from the spec: the pervasive `wsc!` wrapper of the missing
`macros.rs`, which skips whitespace/comments on both sides of a token. -/
def wscP {α : Type} (p : P α) : P α := fun s =>
  match p (optSpaceL s) with
  | .ok rest a => .ok (optSpaceL rest) a
  | e => e

/-! ## Data model (`expressions.rs`, `statements.rs`, `commands.rs`,
`memory.rs`, `sections.rs`, `script.rs` type definitions) -/

inductive UnaryOperator where
  | logicNot
  | minus
  | bitwiseNot
deriving Repr, DecidableEq

inductive BinaryOperator where
  | multiply
  | divide
  | shiftLeft
  | shiftRight
  | bitwiseAnd
  | bitwiseOr
  | logicAnd
  | logicOr
  | equals
  | notEquals
  | lesser
  | greater
  | lesserOrEquals
  | greaterOrEquals
  | plus
  | minus
  | remainder
deriving Repr, DecidableEq

inductive Expression where
  | ident (name : String)
  | num (value : Nat)
  | call (function : String) (arguments : List Expression)
  | unaryOp (operator : UnaryOperator) (right : Expression)
  | binaryOp (left : Expression) (operator : BinaryOperator) (right : Expression)
  | ternaryOp (condition left right : Expression)
deriving Repr

inductive AssignOperator where
  | equals
  | plus
  | minus
  | multiply
  | divide
  | shiftLeft
  | shiftRight
  | and
  | or
deriving Repr, DecidableEq

inductive Statement where
  | assign (name : String) (operator : AssignOperator) (expression : Expression)
  | hidden (name : String) (expression : Expression)
  | provide (name : String) (expression : Expression)
  | provideHidden (name : String) (expression : Expression)
  | assert (expr : Expression) (text : String)
deriving Repr

inductive InsertOrder where
  | before
  | after
deriving Repr, DecidableEq

/-- `commands.rs` `Command`; `include` is a Lean keyword, so that variant is
called `includeFile` here. -/
inductive Command where
  | call (name : String) (arguments : List Expression)
  | includeFile (file : String)
  | insert (order : InsertOrder) (section_ : String)
deriving Repr

structure Region where
  name : String
  origin : Nat
  length : Nat
deriving Repr

inductive OutputSectionType where
  | noLoad
  | dSect
  | copy
  | info
  | overlay
deriving Repr, DecidableEq

inductive OutputSectionConstraint where
  | onlyIfRo
  | onlyIfRw
deriving Repr, DecidableEq

inductive DataType where
  | byte
  | short
  | long
  | quad
deriving Repr, DecidableEq

inductive SectionPattern where
  | simple (name : String)
  | sortByName (name : String)
  | sortByAlignment (name : String)
  | sortByInitPriority (name : String)
  | sortNone (name : String)
  | excludeFile (files : List String) (pat : SectionPattern)
deriving Repr

inductive OutputSectionCommand where
  | statement (stmt : Statement)
  | fill (expr : Expression)
  | data (dType : DataType) (value : Expression)
  | inputSection (file : SectionPattern) (sections : List SectionPattern)
  | keepInputSection (file : SectionPattern) (sections : List SectionPattern)
deriving Repr

structure OutputSection where
  name : String
  vmaAddress : Option Expression := none
  sType : Option OutputSectionType := none
  lmaAddress : Option Expression := none
  sectionAlign : Option Expression := none
  alignWithInput : Bool := false
  subsectionAlign : Option Expression := none
  constraint : Option OutputSectionConstraint := none
  content : List OutputSectionCommand := []
  region : Option String := none
  lmaRegion : Option String := none
  fillexp : Option Expression := none
deriving Repr

inductive SectionCommand where
  | statement (stmt : Statement)
  | command (cmd : Command)
  | outputSection (sec : OutputSection)
deriving Repr

inductive RootItem where
  | statement (stmt : Statement)
  | command (cmd : Command)
  | memory (regions : List Region)
  | sections (list : List SectionCommand)
deriving Repr

/-! ## Lexical primitives (modelled from the spec) -/

/-- Modelled from the spec: the symbol alphabet of the missing `idents.rs` —
letters, digits, and the punctuation `_ . $ -`. -/
def isSymbolChar (c : Char) : Bool :=
  c.isAlphanum || c = '_' || c = '.' || c = '$' || c = '-'

/-- Modelled from the spec: `symbol` of the missing `idents.rs`, a maximal
non-empty run of symbol characters. -/
def symbolP : P String := takeWhile1P isSymbolChar

/-- Modelled from the spec: the glob-pattern alphabet — the symbol alphabet
plus wildcard characters and path separators. -/
def isPatternChar (c : Char) : Bool :=
  isSymbolChar c || c = '*' || c = '?' || c = '[' || c = ']' || c = '/' || c = '\\'

/-- Modelled from the spec: `pattern` of the missing `idents.rs`. -/
def patternP : P String := takeWhile1P isPatternChar

/-- Hexadecimal digit test. -/
def isHexChar (c : Char) : Bool :=
  c.isDigit || ('a' ≤ c && c ≤ 'f') || ('A' ≤ c && c ≤ 'F')

/-- Numeric value of a (hex) digit character. -/
def digitVal (c : Char) : Nat :=
  if c.isDigit then c.toNat - 48
  else if 'a' ≤ c && c ≤ 'f' then c.toNat - 87
  else c.toNat - 55

/-- Value of a digit run in the given base. -/
def digitsVal (base : Nat) (l : List Char) : Nat :=
  l.foldl (fun acc c => acc * base + digitVal c) 0

/-- Modelled from the spec: after the digits of a numeric literal, an
optional `K` (×1024) or `M` (×1024×1024) size suffix; a following letter
run that is not exactly `K` or `M` is rejected. -/
def numSuffix (n : Nat) : P Nat := fun s =>
  match s with
  | 'K' :: rest => if rest.headD ' ' |>.isAlpha then .recov else .ok rest (n * 1024)
  | 'M' :: rest => if rest.headD ' ' |>.isAlpha then .recov else .ok rest (n * 1024 * 1024)
  | c :: _ => if c.isAlpha then .recov else .ok s n
  | [] => .ok [] n

/-- Modelled from the spec: `number` of the missing `numbers.rs` — a decimal
or `0x`-prefixed hexadecimal unsigned integer with optional `K`/`M`
suffix. -/
def numberP : P Nat := fun s =>
  match tagS "0x" s with
  | .ok rest _ =>
    pbind (takeWhile1P isHexChar rest) (fun r run => numSuffix (digitsVal 16 run.data) r)
  | _ =>
    pbind (takeWhile1P Char.isDigit s) (fun r run => numSuffix (digitsVal 10 run.data) r)

/-! ## Expression grammar (modelled from the spec §4.3)

The missing `expressions.rs` implements precedence climbing:
ternary → logical-or → logical-and → bitwise-or → bitwise-and →
equality/relational → shift → additive → multiplicative → unary → primary,
with left-associative binary operators and a right-associative ternary. -/

/-- A fixed tag parsed to a fixed value. -/
def opTag {α : Type} (t : String) (v : α) : P α := fun s =>
  pmap (fun _ => v) (tagS t s)

def unOpP : P UnaryOperator :=
  altL [opTag "!" .logicNot, opTag "-" .minus, opTag "~" .bitwiseNot]

def mulOpP : P BinaryOperator :=
  altL [opTag "*" .multiply, opTag "/" .divide, opTag "%" .remainder]

def addOpP : P BinaryOperator :=
  altL [opTag "+" .plus, opTag "-" .minus]

def shiftOpP : P BinaryOperator :=
  altL [opTag "<<" .shiftLeft, opTag ">>" .shiftRight]

def eqrelOpP : P BinaryOperator :=
  altL [opTag "==" .equals, opTag "!=" .notEquals, opTag "<=" .lesserOrEquals,
    opTag ">=" .greaterOrEquals, opTag "<" .lesser, opTag ">" .greater]

def bandOpP : P BinaryOperator := opTag "&" .bitwiseAnd

def borOpP : P BinaryOperator := opTag "|" .bitwiseOr

def landOpP : P BinaryOperator := opTag "&&" .logicAnd

def lorOpP : P BinaryOperator := opTag "||" .logicOr

/-- Left-associative operator loop: repeatedly parse an operator and the
next operand, folding into a left-leaning tree.  If the operand after an
operator fails recoverably the loop rewinds to before that operator and
stops (so `&` does not swallow the first half of `&&`). -/
def chainlLoop : Nat → P Expression → P BinaryOperator → Expression → Inp → ParseRes Expression
  | 0, _, _, acc, s => .ok s acc
  | f + 1, operand, opP, acc, s =>
    match opP (optSpaceL s) with
    | .ok r op =>
      match operand (optSpaceL r) with
      | .ok r2 e => chainlLoop f operand opP (.binaryOp acc op e) r2
      | .recov => .ok s acc
      | .fatal => .fatal
      | .vio => .vio
    | .recov => .ok s acc
    | .fatal => .fatal
    | .vio => .vio

/-- One precedence level of left-associative binary operators. -/
def chainl1F (f : Nat) (operand : P Expression) (opP : P BinaryOperator) : P Expression :=
  fun s => pbind (operand s) (fun rest e => chainlLoop f operand opP e rest)

/-- Unary level: `!`, unary `-`, `~`, iterated. -/
def unaryF : Nat → P Expression → P Expression
  | 0, _ => fun _ => .recov
  | f + 1, primary => fun s =>
    match unOpP s with
    | .ok rest op => pmap (fun e => .unaryOp op e) (unaryF f primary (optSpaceL rest))
    | .recov => primary s
    | .fatal => .fatal
    | .vio => .vio

def numberExprP : P Expression := fun s => pmap Expression.num (numberP s)

def identExprP : P Expression := fun s => pmap Expression.ident (symbolP s)

/-- One further `, expr` argument of a call. -/
def moreArgP (full : P Expression) : P Expression := fun s =>
  pbind (tagS "," (optSpaceL s)) (fun r _ => full (optSpaceL r))

/-- Comma-separated, possibly empty argument list. -/
def argsP (f : Nat) (full : P Expression) : P (List Expression) := fun s =>
  match full s with
  | .recov => .ok s []
  | .fatal => .fatal
  | .vio => .vio
  | .ok r e => pmap (fun l => e :: l) (many0F f (moreArgP full) r)

/-- Function-call primary: identifier followed by a parenthesised argument
list. -/
def callExprP (f : Nat) (full : P Expression) : P Expression := fun s =>
  pbind (symbolP s) (fun r name =>
    pbind (tagS "(" (optSpaceL r)) (fun r2 _ =>
      pbind (argsP f full (optSpaceL r2)) (fun r3 args =>
        pbind (tagS ")" (optSpaceL r3)) (fun r4 _ =>
          .ok r4 (.call name args)))))

/-- Parenthesised expression (no separate tree node). -/
def parenExprP (full : P Expression) : P Expression := fun s =>
  pbind (tagS "(" s) (fun r _ =>
    pbind (full (optSpaceL r)) (fun r2 e =>
      pbind (tagS ")" (optSpaceL r2)) (fun r3 _ => .ok r3 e)))

/-- Primary level: number, function call, identifier, parenthesised
expression (number first, since the symbol alphabet contains digits). -/
def primaryF (f : Nat) (full : P Expression) : P Expression :=
  altL [numberExprP, callExprP f full, identExprP, parenExprP full]

/-- Ternary level, right-associative: `cond ? a : b`. -/
def ternaryF : Nat → P Expression → P Expression → P Expression
  | 0, _, _ => fun _ => .recov
  | f + 1, full, next => fun s =>
    pbind (next s) (fun r c =>
      match tagS "?" (optSpaceL r) with
      | .ok r2 _ =>
        pbind (full (optSpaceL r2)) (fun r3 a =>
          pbind (tagS ":" (optSpaceL r3)) (fun r4 _ =>
            pbind (ternaryF f full next (optSpaceL r4)) (fun r5 b =>
              .ok r5 (.ternaryOp c a b))))
      | _ => .ok r c)

/-- Modelled from the spec: `expression` of the missing `expressions.rs`,
the full precedence-climbing expression grammar. -/
def expressionF : Nat → P Expression
  | 0 => fun _ => .recov
  | f + 1 => fun s =>
    let pr := primaryF f (expressionF f)
    let un := unaryF (f + 1) pr
    let mu := chainl1F f un mulOpP
    let ad := chainl1F f mu addOpP
    let sh := chainl1F f ad shiftOpP
    let er := chainl1F f sh eqrelOpP
    let ba := chainl1F f er bandOpP
    let bo := chainl1F f ba borOpP
    let la := chainl1F f bo landOpP
    let lo := chainl1F f la lorOpP
    ternaryF (f + 1) (expressionF f) lo s

example :
    expressionF 20 "1 + 2 * 3".data =
      .ok [] (.binaryOp (.num 1) .plus (.binaryOp (.num 2) .multiply (.num 3))) := rfl

example :
    expressionF 20 "SIZEOF(.upper)==0".data =
      .ok [] (.binaryOp (.call "SIZEOF" [.ident ".upper"]) .equals (.num 0)) := rfl

example : expressionF 20 "(a - 1) ? -2 : b".data =
    .ok [] (.ternaryOp (.binaryOp (.ident "a") .minus (.num 1))
      (.unaryOp .minus (.num 2)) (.ident "b")) := rfl

example : expressionF 20 "a && b".data =
    .ok [] (.binaryOp (.ident "a") .logicAnd (.ident "b")) := rfl

example : expressionF 20 "128K".data = .ok [] (.num 131072) := rfl

/-! ## Statement grammar (modelled from the spec §4.4) -/

/-- Double-quoted text for `ASSERT`. -/
def quotedP : P String := fun s =>
  pbind (tagS "\"" s) (fun r _ =>
    let body := r.takeWhile (fun c => !(c = '"'))
    pbind (tagS "\"" (r.drop body.length)) (fun r2 _ => .ok r2 (String.mk body)))

/-- Modelled from the spec: assignment operator of the missing
`statements.rs`, one of `=  +=  -=  *=  /=  <<=  >>=  &=  |=`. -/
def assignOpP : P AssignOperator :=
  altL [opTag "<<=" .shiftLeft, opTag ">>=" .shiftRight, opTag "+=" .plus,
    opTag "-=" .minus, opTag "*=" .multiply, opTag "/=" .divide,
    opTag "&=" .and, opTag "|=" .or, opTag "=" .equals]

/-- Modelled from the spec: `ASSERT(expr, "text");` — committed once the
keyword and opening parenthesis have matched. -/
def assertP (f : Nat) : P Statement := fun s =>
  pbind (tagS "ASSERT" s) (fun r _ =>
    pbind (wscP (tagS "(") r) (fun r1 _ =>
      cutP (fun s2 =>
        pbind (expressionF f s2) (fun r2 e =>
          pbind (tagS "," (optSpaceL r2)) (fun r3 _ =>
            pbind (quotedP (optSpaceL r3)) (fun r4 txt =>
              pbind (tagS ")" (optSpaceL r4)) (fun r5 _ =>
                pbind (tagS ";" (optSpaceL r5)) (fun r6 _ =>
                  .ok r6 (.assert e txt))))))) r1))

/-- Modelled from the spec: the shared `KEYWORD(name = expr);` shape of
`PROVIDE`, `PROVIDE_HIDDEN` and `HIDDEN` — committed once the keyword and
opening parenthesis have matched. -/
def provLikeP (kw : String) (mk : String → Expression → Statement) (f : Nat) :
    P Statement := fun s =>
  pbind (tagS kw s) (fun r _ =>
    pbind (wscP (tagS "(") r) (fun r1 _ =>
      cutP (fun s2 =>
        pbind (symbolP s2) (fun r2 name =>
          pbind (tagS "=" (optSpaceL r2)) (fun r3 _ =>
            pbind (expressionF f (optSpaceL r3)) (fun r4 e =>
              pbind (tagS ")" (optSpaceL r4)) (fun r5 _ =>
                pbind (tagS ";" (optSpaceL r5)) (fun r6 _ =>
                  .ok r6 (mk name e))))))) r1))

/-- Modelled from the spec: bare assignment `name <op> expr ;` — the
remainder is committed only after the operator (the distinguishing prefix)
has matched. -/
def assignP (f : Nat) : P Statement := fun s =>
  pbind (symbolP s) (fun r name =>
    match assignOpP (optSpaceL r) with
    | .ok r1 op =>
      cutP (fun s2 =>
        pbind (expressionF f (optSpaceL s2)) (fun r2 e =>
          pbind (tagS ";" (optSpaceL r2)) (fun r3 _ =>
            .ok r3 (.assign name op e)))) r1
    | .recov => .recov
    | .fatal => .fatal
    | .vio => .vio)

/-- Modelled from the spec: `statement` of the missing `statements.rs`, in
the spec's priority order. -/
def statementF (f : Nat) : P Statement :=
  altL [assertP f, provLikeP "PROVIDE_HIDDEN" .provideHidden f,
    provLikeP "PROVIDE" .provide f, provLikeP "HIDDEN" .hidden f, assignP f]

/-! ## Command grammar (modelled from the spec §4.5) -/

/-- Modelled from the spec: `INCLUDE path;` of the missing `commands.rs`
(the trailing `;` matches the generator's output). -/
def includeP : P Command := fun s =>
  pbind (tagS "INCLUDE" s) (fun r _ =>
    pbind (patternP (optSpaceL r)) (fun r1 file =>
      pbind (tagS ";" (optSpaceL r1)) (fun r2 _ => .ok r2 (.includeFile file))))

/-- Modelled from the spec (§4.5, §9): `INSERT [BEFORE|AFTER] section`, with
a trailing `;` like the other commands. -/
def insertP : P Command := fun s =>
  pbind (tagS "INSERT" s) (fun r _ =>
    pbind (wscP (alt2 (opTag "BEFORE" InsertOrder.before) (opTag "AFTER" InsertOrder.after)) r)
      (fun r1 ord =>
        pbind (symbolP r1) (fun r2 sec =>
          pbind (tagS ";" (optSpaceL r2)) (fun r3 _ => .ok r3 (.insert ord sec)))))

/-- Modelled from the spec: the generic `name(arg, arg, ...);` command form
of the missing `commands.rs`. -/
def callCmdP (f : Nat) : P Command := fun s =>
  pbind (symbolP s) (fun r name =>
    pbind (wscP (tagS "(") r) (fun r1 _ =>
      pbind (argsP f (expressionF f) r1) (fun r2 args =>
        pbind (wscP (tagS ")") r2) (fun r3 _ =>
          pbind (tagS ";" r3) (fun r4 _ => .ok r4 (.call name args))))))

/-- Modelled from the spec: `command` of the missing `commands.rs`. -/
def commandF (f : Nat) : P Command :=
  altL [includeP, insertP, callCmdP f]

/-! ## Memory-region grammar (modelled from the spec §4.6) -/

/-- Modelled from the spec: `region` of the missing `memory.rs` —
`name : ORIGIN = <number>, LENGTH = <number>`, the numbers using the
`K`/`M`-suffixed literal grammar and stored as absolute values. -/
def regionP : P Region := fun s =>
  pbind (symbolP s) (fun r name =>
    pbind (tagS ":" (optSpaceL r)) (fun r1 _ =>
      pbind (tagS "ORIGIN" (optSpaceL r1)) (fun r2 _ =>
        pbind (tagS "=" (optSpaceL r2)) (fun r3 _ =>
          pbind (numberP (optSpaceL r3)) (fun r4 origin =>
            pbind (tagS "," (optSpaceL r4)) (fun r5 _ =>
              pbind (tagS "LENGTH" (optSpaceL r5)) (fun r6 _ =>
                pbind (tagS "=" (optSpaceL r6)) (fun r7 _ =>
                  pbind (numberP (optSpaceL r7)) (fun r8 len =>
                    .ok r8 ⟨name, origin, len⟩)))))))))

/-! ## Section grammar (translated from `sections.rs`) -/

/-- `sections.rs` `output_section_type`. -/
def outputSectionTypeP : P OutputSectionType :=
  altL [opTag "(NOLOAD)" .noLoad, opTag "(DSECT)" .dSect, opTag "(COPY)" .copy,
    opTag "(INFO)" .info, opTag "(OVERLAY)" .overlay]

/-- `sections.rs` `output_section_constraint`. -/
def outputSectionConstraintP : P OutputSectionConstraint :=
  alt2 (opTag "ONLY_IF_RO" .onlyIfRo) (opTag "ONLY_IF_RW" .onlyIfRw)

/-- `sections.rs` `sorted_sp`: a sort keyword, then committed
`( pattern )`; the keyword match with the `panic!` default modelled as
`vio`. -/
def sortedSpP : P SectionPattern := fun s =>
  pbind (altL [tagS "SORT_BY_NAME", tagS "SORT_BY_ALIGNMENT",
      tagS "SORT_BY_INIT_PRIORITY", tagS "SORT_NONE", tagS "SORT"] s) (fun r kw =>
    pbind (cutP (wscP (tagS "(")) r) (fun r1 _ =>
      pbind (cutP patternP r1) (fun r2 inner =>
        pbind (cutP (tagS ")") (optSpaceL r2)) (fun r4 _ =>
          if kw = "SORT" || kw = "SORT_BY_NAME" then .ok r4 (.sortByName inner)
          else if kw = "SORT_BY_ALIGNMENT" then .ok r4 (.sortByAlignment inner)
          else if kw = "SORT_BY_INIT_PRIORITY" then .ok r4 (.sortByInitPriority inner)
          else if kw = "SORT_NONE" then .ok r4 (.sortNone inner)
          else .vio))))

/-- `sections.rs` `exclude_file_sp`, parametrised by the recursive
`section_pattern` parser. -/
def excludeFileSpP (f : Nat) (inner : P SectionPattern) : P SectionPattern := fun s =>
  pbind (tagS "EXCLUDE_FILE" s) (fun r _ =>
    pbind (tagS "(" (optSpaceL r)) (fun r1 _ =>
      pbind (cutP (many1F f (wscP patternP)) r1) (fun r2 files =>
        pbind (cutP (tagS ")") r2) (fun r3 _ =>
          pbind (cutP inner (optSpaceL r3)) (fun r4 pat =>
            .ok r4 (.excludeFile files pat))))))

/-- `sections.rs` `simple_sp`. -/
def simpleSpP : P SectionPattern := fun s => pmap SectionPattern.simple (patternP s)

/-- `sections.rs` `section_pattern`. -/
def sectionPatternF : Nat → P SectionPattern
  | 0 => fun _ => .recov
  | f + 1 => altL [excludeFileSpP f (sectionPatternF f), sortedSpP, simpleSpP]

/-- `sections.rs` `data_osc`; the `panic!` default of the keyword match is
modelled as `vio`. -/
def dataOscP (f : Nat) : P OutputSectionCommand := fun s =>
  pbind (altL [tagS "BYTE", tagS "SHORT", tagS "LONG", tagS "QUAD"] s) (fun r dt =>
    pbind (wscP (tagS "(") r) (fun r1 _ =>
      pbind (expressionF f r1) (fun r2 v =>
        pbind (wscP (tagS ")") r2) (fun r3 _ =>
          pbind (optP (tagS ";") r3) (fun r4 _ =>
            if dt = "BYTE" then .ok r4 (.data .byte v)
            else if dt = "SHORT" then .ok r4 (.data .short v)
            else if dt = "LONG" then .ok r4 (.data .long v)
            else if dt = "QUAD" then .ok r4 (.data .quad v)
            else .vio)))))

/-- `sections.rs` `fill_osc`. -/
def fillOscP (f : Nat) : P OutputSectionCommand := fun s =>
  pbind (tagS "FILL" s) (fun r _ =>
    pbind (wscP (tagS "(") r) (fun r1 _ =>
      pbind (expressionF f r1) (fun r2 e =>
        pbind (wscP (tagS ")") r2) (fun r3 _ =>
          pbind (optP (tagS ";") r3) (fun r4 _ => .ok r4 (.fill e))))))

/-- `sections.rs` `statement_osc`. -/
def statementOscP (f : Nat) : P OutputSectionCommand := fun s =>
  pmap OutputSectionCommand.statement (statementF f s)

/-- The parenthesised non-empty section-pattern list of `input_osc`
(`delimited(wsc!(tag("(")), many1(wsc!(section_pattern)), wsc!(tag(")")))`). -/
def sectionListP (f : Nat) : P (List SectionPattern) := fun s1 =>
  pbind (wscP (tagS "(") s1) (fun r1 _ =>
    pbind (many1F f (wscP (sectionPatternF f)) r1) (fun r2 secs =>
      pbind (wscP (tagS ")") r2) (fun r3 _ => .ok r3 secs)))

/-- `sections.rs` `input_osc`: a file pattern with an optional parenthesised
non-empty list of section patterns. -/
def inputOscP (f : Nat) : P OutputSectionCommand := fun s =>
  pbind (sectionPatternF f s) (fun r file =>
    pbind (optP (sectionListP f) (optSpaceL r)) (fun r4 osecs =>
      .ok r4 (.inputSection file (osecs.getD []))))

/-- `sections.rs` `keep_osc`: `KEEP(` wrapping exactly `input_osc`; the
`panic!` on any non-`InputSection` result is modelled as `vio`. -/
def keepOscP (f : Nat) : P OutputSectionCommand := fun s =>
  pbind (tagS "KEEP" s) (fun r _ =>
    pbind (wscP (tagS "(") r) (fun r1 _ =>
      pbind (inputOscP f r1) (fun r2 inner =>
        pbind (wscP (tagS ")") r2) (fun r3 _ =>
          match inner with
          | .inputSection file secs => .ok r3 (.keepInputSection file secs)
          | _ => .vio))))

/-- `sections.rs` `output_section_command`, in source alternative order. -/
def outputSectionCommandF (f : Nat) : P OutputSectionCommand :=
  altL [statementOscP f, keepOscP f, dataOscP f, fillOscP f, inputOscP f]

/-- `delimited(tag(open), wsc!(expression), tag(")"))` as used for the
`AT( )`, `ALIGN( )` and `SUBALIGN( )` header fields. -/
def exprDelimP (o : String) (f : Nat) : P Expression := fun s =>
  pbind (tagS o s) (fun r _ =>
    pbind (wscP (expressionF f) r) (fun r2 e =>
      pbind (tagS ")" r2) (fun r3 _ => .ok r3 e)))

/-- `sections.rs` `output_sc`: the full output-section definition.  The
stored type tag is `s_type1` when present, otherwise `s_type2` ("first
occurrence wins"). -/
def outputScF (f : Nat) : P SectionCommand := fun s =>
  pbind (alt2 (tagS "/DISCARD/") symbolP s) (fun r name =>
    pbind (optP outputSectionTypeP (optSpaceL r)) (fun r1 st1 =>
      pbind (wscP (optP (expressionF f)) r1) (fun r2 vma =>
        pbind (optP outputSectionTypeP r2) (fun r3 st2 =>
          pbind (wscP (tagS ":") r3) (fun r4 _ =>
            pbind (optP (exprDelimP "AT(" f) r4) (fun r5 lma =>
              pbind (optP (exprDelimP "ALIGN(" f) (optSpaceL r5)) (fun r7 salign =>
                pbind (wscP (optP (tagS "ALIGN_WITH_INPUT")) r7) (fun r8 awi =>
                  pbind (optP (exprDelimP "SUBALIGN(" f) r8) (fun r9 subal =>
                    pbind (wscP (optP outputSectionConstraintP) r9) (fun r10 constr =>
                      pbind (wscP (tagS "\x7b") r10) (fun r11 _ =>
                        pbind (many0F f (wscP (outputSectionCommandF f)) r11) (fun r12 content =>
                          pbind (wscP (tagS "\x7d") r12) (fun r13 _ =>
                            pbind (optP (fun s1 => pbind (tagS ">" s1)
                                (fun ra _ => wscP symbolP ra)) r13) (fun r14 reg =>
                              pbind (optP (fun s1 => pbind (tagS "AT>" s1)
                                  (fun ra _ => wscP symbolP ra)) r14) (fun r15 lreg =>
                                pbind (optP (fun s1 => pbind (tagS "=" s1)
                                    (fun ra _ => wscP (expressionF f) ra)) r15) (fun r16 fe =>
                                  pbind (optP (tagS ",") r16) (fun r17 _ =>
                                    .ok r17 (.outputSection
                                      { name := name
                                        vmaAddress := vma
                                        sType := if st1.isSome then st1 else st2
                                        lmaAddress := lma
                                        sectionAlign := salign
                                        alignWithInput := awi.isSome
                                        subsectionAlign := subal
                                        constraint := constr
                                        content := content
                                        region := reg
                                        lmaRegion := lreg
                                        fillexp := fe }))))))))))))))))))

/-- `sections.rs` `statement_sc`. -/
def statementScP (f : Nat) : P SectionCommand := fun s =>
  pmap SectionCommand.statement (statementF f s)

/-- `sections.rs` `command_sc`. -/
def commandScP (f : Nat) : P SectionCommand := fun s =>
  pmap SectionCommand.command (commandF f s)

/-- `sections.rs` `section_command`, in source alternative order. -/
def sectionCommandF (f : Nat) : P SectionCommand :=
  altL [statementScP f, outputScF f, commandScP f]

/-! ## Root assembler (translated from `script.rs`) -/

/-- `script.rs` `statement_item`. -/
def statementItemF (f : Nat) : P RootItem := fun s =>
  pmap RootItem.statement (statementF f s)

/-- `script.rs` `command_item`. -/
def commandItemF (f : Nat) : P RootItem := fun s =>
  pmap RootItem.command (commandF f s)

/-- `script.rs` `memory_item`: `MEMORY {` then one-or-more regions then
`}`. -/
def memoryItemF (f : Nat) : P RootItem := fun s =>
  pbind (tagS "MEMORY" s) (fun r _ =>
    pbind (wscP (tagS "\x7b") r) (fun r1 _ =>
      pbind (many1F f (wscP regionP) r1) (fun r2 regions =>
        pbind (tagS "\x7d" r2) (fun r3 _ => .ok r3 (.memory regions)))))

/-- `script.rs` `sections_item`: `SECTIONS {` then one-or-more section
commands then `}`. -/
def sectionsItemF (f : Nat) : P RootItem := fun s =>
  pbind (tagS "SECTIONS" s) (fun r _ =>
    pbind (wscP (tagS "\x7b") r) (fun r1 _ =>
      pbind (many1F f (wscP (sectionCommandF f)) r1) (fun r2 list =>
        pbind (tagS "\x7d" r2) (fun r3 _ => .ok r3 (.sections list)))))

/-- `script.rs` `root_item`, in source alternative order. -/
def rootItemF (f : Nat) : P RootItem :=
  altL [statementItemF f, memoryItemF f, sectionsItemF f, commandItemF f]

/-- `script.rs` `parse`: one-or-more whitespace-wrapped root items, or else
whitespace only and the empty list. -/
def parseF (f : Nat) : P (List RootItem) :=
  alt2 (many1F f (wscP (rootItemF f))) (fun s => .ok (optSpaceL s) [])

/-- The `script.rs` `parse` entry point applied with always-sufficient
fuel. -/
def parseLd (s : String) : ParseRes (List RootItem) :=
  parseF (s.length + 64) s.data

/-! ## Generator (translated from `generator.rs`) -/

/-- Uppercase hexadecimal digit character for a value below 16. -/
def hexDigitU (n : Nat) : Char :=
  if n < 10 then Char.ofNat (48 + n) else Char.ofNat (55 + n)

/-- Fuel-driven big-endian uppercase hex digits accumulator. -/
def hexCore : Nat -> Nat -> List Char -> List Char
  | 0, _, acc => acc
  | f + 1, n, acc =>
    if n < 16 then hexDigitU n :: acc
    else hexCore f (n / 16) (hexDigitU (n % 16) :: acc)

/-- Rust's `format!("{:X}", n)`: uppercase hexadecimal without leading
zeros, `"0"` for zero. -/
def hexUp (n : Nat) : String := String.mk (hexCore (n + 1) n [])

/-- Spaces for indentation. -/
def spacesN (n : Nat) : String := String.mk (List.replicate n ' ')

/-- Split at newlines (the list of lines, newline characters removed). -/
def splitOnNl : Inp -> List Inp
  | [] => [[]]
  | c :: cs =>
    if c = '\n' then [] :: splitOnNl cs
    else
      match splitOnNl cs with
      | l :: ls => (c :: l) :: ls
      | [] => [ [ c ] ]

/-- The `indent` crate's `indent_all_by`: prefix every line with `n`
spaces (our generator only applies it to text without a trailing
newline). -/
def indentAllBy (n : Nat) (s : String) : String :=
  String.intercalate "\n" ((splitOnNl s.data).map (fun l => spacesN n ++ String.mk l))

/-- `impl Generate for AssignOperator`. -/
def genAssignOp : AssignOperator -> String
  | .equals => "="
  | .plus => "+="
  | .minus => "-="
  | .multiply => "*="
  | .divide => "/="
  | .shiftLeft => "<<="
  | .shiftRight => ">>="
  | .and => "&="
  | .or => "|="

/-- `impl Generate for UnaryOperator`. -/
def genUnOp : UnaryOperator -> String
  | .logicNot => "!"
  | .minus => "-"
  | .bitwiseNot => "~"

/-- `impl Generate for BinaryOperator`. -/
def genBinOp : BinaryOperator -> String
  | .multiply => "*"
  | .divide => "/"
  | .shiftLeft => "<<"
  | .shiftRight => ">>"
  | .bitwiseAnd => "&"
  | .bitwiseOr => "|"
  | .logicAnd => "&&"
  | .logicOr => "||"
  | .equals => "=="
  | .notEquals => "!="
  | .lesser => "<"
  | .greater => ">"
  | .lesserOrEquals => "<="
  | .greaterOrEquals => ">="
  | .plus => "+"
  | .minus => "-"
  | .remainder => "%"

mutual

/-- `impl Generate for Expression`. -/
def genExpr : Expression -> String
  | .ident i => i
  | .num n => toString n
  | .call f args => f ++ "(" ++ String.intercalate ", " (genExprList args) ++ ")"
  | .unaryOp op r => genUnOp op ++ genExpr r
  | .binaryOp l op r => genExpr l ++ " " ++ genBinOp op ++ " " ++ genExpr r
  | .ternaryOp c l r => genExpr c ++ " ? " ++ genExpr l ++ " : " ++ genExpr r

/-- Renderings of a call's arguments, in order. -/
def genExprList : List Expression -> List String
  | [] => []
  | e :: es => genExpr e :: genExprList es

end

/-- `impl Generate for Statement`. -/
def genStatement : Statement -> String
  | .assign name op e => name ++ " " ++ genAssignOp op ++ " " ++ genExpr e ++ ";"
  | .hidden name e => "HIDDEN (" ++ name ++ " = " ++ genExpr e ++ ");"
  | .provide name e => "PROVIDE (" ++ name ++ " = " ++ genExpr e ++ ");"
  | .provideHidden name e => "PROVIDE_HIDDEN (" ++ name ++ " = " ++ genExpr e ++ ");"
  | .assert e text => "ASSERT ((" ++ genExpr e ++ "), \"" ++ text ++ "\");"

/-- `impl Generate for Command`; the `Insert { .. } => unimplemented!()`
panic is modelled as `none`. -/
def genCommand : Command -> Option String
  | .call name args => some (name ++ "(" ++ String.intercalate ", " (genExprList args) ++ ");")
  | .includeFile file => some ("INCLUDE " ++ file ++ ";")
  | .insert _ _ => none

/-- `impl Generate for Region`: `<n>M` when the length is divisible by one
mebibyte, else `<n>K` when divisible by one kibibyte, else the bare
decimal; the origin as `0x`-prefixed uppercase hexadecimal. -/
def genRegion (r : Region) : String :=
  let length :=
    if r.length % (1024 * 1024) = 0 then toString (r.length / (1024 * 1024)) ++ "M"
    else if r.length % 1024 = 0 then toString (r.length / 1024) ++ "K"
    else toString r.length
  r.name ++ " : ORIGIN = 0x" ++ hexUp r.origin ++ ", LENGTH = " ++ length

/-- `impl Generate for OutputSectionType`. -/
def genOSType : OutputSectionType -> String
  | .noLoad => "(NOLOAD)"
  | .dSect => "(DSECT)"
  | .copy => "(COPY)"
  | .info => "(INFO)"
  | .overlay => "(OVERLAY)"

/-- `impl Generate for OutputSectionConstraint`. -/
def genOSConstraint : OutputSectionConstraint -> String
  | .onlyIfRo => "ONLY_IF_RO"
  | .onlyIfRw => "ONLY_IF_RW"

/-- `impl Generate for DataType`. -/
def genDataType : DataType -> String
  | .byte => "BYTE"
  | .short => "SHORT"
  | .long => "LONG"
  | .quad => "QUAD"

/-- `impl Generate for SectionPattern`. -/
def genSectionPattern : SectionPattern -> String
  | .simple name => name
  | .sortByName name => "SORT_BY_NAME(" ++ name ++ ")"
  | .sortByAlignment name => "SORT_BY_ALIGNMENT(" ++ name ++ ")"
  | .sortByInitPriority name => "SORT_BY_INIT_PRIORITY(" ++ name ++ ")"
  | .sortNone name => "SORT_NONE(" ++ name ++ ")"
  | .excludeFile files pat =>
    "EXCLUDE_FILE(" ++ String.intercalate " " files ++ ") " ++ genSectionPattern pat

/-- Renderings of a pattern list, in order. -/
def genSPList : List SectionPattern -> List String
  | [] => []
  | p :: ps => genSectionPattern p :: genSPList ps

/-- `impl Generate for OutputSectionCommand`. -/
def genOSC : OutputSectionCommand -> String
  | .statement st => genStatement st
  | .fill e => "FILL(" ++ genExpr e ++ ")"
  | .data dt v => genDataType dt ++ " " ++ genExpr v
  | .inputSection file sections =>
    genSectionPattern file ++ "(" ++ String.intercalate ", " (genSPList sections) ++ ")"
  | .keepInputSection file sections =>
    "KEEP (" ++ genSectionPattern file ++ "(" ++ String.intercalate ", " (genSPList sections) ++ "))"

/-- `impl Generate for SectionCommand`, field by field in source order;
note the `" >{},"`, `" AT>{}:"` and `" ={};"` trailer renderings. -/
def genSectionCommand : SectionCommand -> Option String
  | .statement st => some (genStatement st)
  | .command c => genCommand c
  | .outputSection o =>
    let part1 := o.name ++ " "
      ++ (match o.vmaAddress with
          | some v => "(" ++ genExpr v ++ ") "
          | none => "")
      ++ (match o.sType with
          | some t => genOSType t ++ " "
          | none => "")
      ++ ":"
      ++ (match o.lmaAddress with
          | some l => " AT(" ++ genExpr l ++ "),"
          | none => "")
      ++ (match o.sectionAlign with
          | some a => " ALIGN(" ++ genExpr a ++ "),"
          | none => "")
      ++ (if o.alignWithInput then " ALIGN_WITH_INPUT," else "")
      ++ (match o.subsectionAlign with
          | some a => " SUBALIGN(" ++ genExpr a ++ "),"
          | none => "")
      ++ (match o.constraint with
          | some c => " " ++ genOSConstraint c ++ ","
          | none => "")
      ++ " \x7b\n"
      ++ String.join (o.content.map (fun c => "  " ++ genOSC c ++ "\n"))
      ++ "\x7d"
      ++ (match o.region with
          | some r => " >" ++ r ++ ","
          | none => "")
      ++ (match o.lmaRegion with
          | some r => " AT>" ++ r ++ ":"
          | none => "")
      ++ (match o.fillexp with
          | some e => " =" ++ genExpr e ++ ";"
          | none => "")
    some part1

/-- The indented, newline-terminated renderings of a `SECTIONS` body. -/
def genSCChunks : List SectionCommand -> Option String
  | [] => some ""
  | sc :: rest =>
    (genSectionCommand sc).bind (fun x =>
      (genSCChunks rest).map (fun y => indentAllBy 2 x ++ "\n" ++ y))

/-- One root item as pushed by `impl Generate for Vec<RootItem>`. -/
def genRootChunk : RootItem -> Option String
  | .statement st => some (genStatement st ++ "\n")
  | .command c => (genCommand c).map (fun x => x ++ "\n")
  | .memory regions =>
    some ("MEMORY \x7b\n"
      ++ String.join (regions.map (fun r => indentAllBy 2 (genRegion r) ++ "\n"))
      ++ "\x7d\n\n")
  | .sections list =>
    (genSCChunks list).map (fun body => "SECTIONS \x7b\n" ++ body ++ "\x7d\n\n")

/-- `impl Generate for Vec<RootItem>` — the `generate` entry point.  The
result is `none` exactly when a rendering reaches the `unimplemented!()`
panic for `Command::Insert`. -/
def genItems : List RootItem -> Option String
  | [] => some ""
  | it :: rest =>
    (genRootChunk it).bind (fun x => (genItems rest).map (fun y => x ++ y))

/-! ## Fluent builder (translated from `builder.rs`) -/

/-- `builder.rs` `MemoryBuilder`. -/
structure MemoryBuilder where
  regions : List Region := []
deriving Repr

/-- `MemoryBuilder::with_region`: push a region with absolute origin and
length. -/
def MemoryBuilder.withRegion (mb : MemoryBuilder) (name : String)
    (origin length : Nat) : MemoryBuilder :=
  { regions := mb.regions ++ [ ⟨name, origin, length⟩ ] }

/-- `MemoryBuilder::with_adjacent_region`: `self.regions.last().unwrap()`
then push a region starting where the last one ends.  The `unwrap` panic on
an empty region list is modelled as `none`; the origin is the `u64` sum
`last_region.origin + last_region.length`, modelled as addition modulo
`2 ^ 64` (release-mode wrapping semantics of the source's `u64`
arithmetic). -/
def MemoryBuilder.withAdjacentRegion (mb : MemoryBuilder) (name : String)
    (length : Nat) : Option MemoryBuilder :=
  match mb.regions.getLast? with
  | none => none
  | some last =>
    some { regions :=
      mb.regions ++ [ ⟨name, (last.origin + last.length) % 2 ^ 64, length⟩ ] }

/-- `builder.rs` `SectionBuilder`. -/
structure SectionBuilder where
  sections : List SectionCommand := []
deriving Repr

/-- `SectionBuilder::with_statement`. -/
def SectionBuilder.withStatement (sb : SectionBuilder) (name : String)
    (op : AssignOperator) (e : Expression) : SectionBuilder :=
  { sections := sb.sections ++ [ .statement (.assign name op e) ] }

/-- `SectionBuilder::with_command`. -/
def SectionBuilder.withCommand (sb : SectionBuilder) (c : Command) : SectionBuilder :=
  { sections := sb.sections ++ [ .command c ] }

/-- `SectionBuilder::with_output`. -/
def SectionBuilder.withOutput (sb : SectionBuilder) (o : OutputSection) : SectionBuilder :=
  { sections := sb.sections ++ [ .outputSection o ] }

/-- `builder.rs` `LinkerScriptBuilder`. -/
structure LinkerScriptBuilder where
  memoryBuilder : MemoryBuilder := {}
  sectionBuilder : SectionBuilder := {}
  commands : List Command := []
  statements : List Statement := []
  additionalContent : List String := []

/-- The root-item list assembled by `impl Generate for LinkerScriptBuilder`:
always a `Memory` block, then a `Sections` block, then the commands, then
the statements. -/
def LinkerScriptBuilder.assembledItems (b : LinkerScriptBuilder) : List RootItem :=
  [ .memory b.memoryBuilder.regions, .sections b.sectionBuilder.sections ]
    ++ b.commands.map RootItem.command ++ b.statements.map RootItem.statement

/-- `impl Generate for LinkerScriptBuilder`: generate the assembled items,
then append each `additional_content` chunk after a newline. -/
def LinkerScriptBuilder.generateB (b : LinkerScriptBuilder) : Option String :=
  (genItems b.assembledItems).map
    (fun g => b.additionalContent.foldl (fun acc c => acc ++ "\n" ++ c) g)

/-! ## Library entry points (`lib.rs`) -/

/-- Modelled from the spec: `commands::script` of the missing
`commands.rs`, the whole-document parser — the root-item parse must consume
the entire input, otherwise a typed error locating the unparsed tail is
returned (spec 7, whole-document failure). -/
def commandsScriptF (f : Nat) : P (List RootItem) := fun s =>
  match parseF f s with
  | .ok rest items => if rest.isEmpty then .ok [] items else .recov
  | e => e

/-- `lib.rs` `parse`: `commands::script(script).unwrap()` — it discards the
parsed tree and `unwrap`s the result, so a parse failure becomes a Rust
panic, which is modelled as `none`. -/
def libParse (s : String) : Option Unit :=
  match commandsScriptF (s.length + 64) s.data with
  | .ok _ _ => some ()
  | _ => none


/-! ## Claim-level definitions -/

/-- A document whose only output section carries an `AT>` load-memory
region trailer. -/
def atDoc : String := "SECTIONS \x7b .text : \x7b \x7d AT>ram \x7d"

/-- The tree `atDoc` parses to. -/
def atTree : List RootItem :=
  [ .sections [ .outputSection { name := ".text", lmaRegion := some "ram" } ] ]

/-- The text the generator renders `atTree` to — note the stray colon after
`AT>ram` produced by `generator.rs`. -/
def atGen : String := "SECTIONS \x7b\n  .text : \x7b\n  \x7d AT>ram:\n\x7d\n\n"

/-- `true` when a command is not the `Insert` directive (whose generator
arm is `unimplemented!()`). -/
def noInsertCmd : Command -> Bool
  | .insert _ _ => false
  | _ => true

/-- `true` when a section command contains no `Insert` directive. -/
def noInsertSC : SectionCommand -> Bool
  | .command c => noInsertCmd c
  | _ => true

/-- `true` when a root item contains no `Insert` directive. -/
def noInsertItem : RootItem -> Bool
  | .command c => noInsertCmd c
  | .sections l => l.all noInsertSC
  | _ => true

/-- `true` when a tree contains no `Insert` directive anywhere. -/
def noInsertItems (items : List RootItem) : Bool := items.all noInsertItem

/-- The text generated by the default (empty) `LinkerScriptBuilder`. -/
def emptyBuilderGen : String := "MEMORY \x7b\n\x7d\n\nSECTIONS \x7b\n\x7d\n\n"

/-- A representative non-empty builder: one memory region, one output
section with an input-section command, one generic command, one
statement. -/
def builder0 : LinkerScriptBuilder :=
  { memoryBuilder := MemoryBuilder.withRegion {} "FLASH" 0 1024
    sectionBuilder := SectionBuilder.withOutput {}
      { name := ".text", content := [ .inputSection (.simple "*") [ .simple ".text" ] ] }
    commands := [ .call "OUTPUT_ARCH" [ .ident "arm" ] ]
    statements := [ .assign "." .equals (.num 0) ] }

/-- The text generated by `builder0`. -/
def builder0Gen : String :=
  "MEMORY \x7b\n  FLASH : ORIGIN = 0x0, LENGTH = 1K\n\x7d\n\nSECTIONS \x7b\n  .text : \x7b\n    *(.text)\n  \x7d\n\x7d\n\nOUTPUT_ARCH(arm);\n. = 0;\n"


/-- An output-section header with a type tag in both allowed positions
(after the name and after the VMA address). -/
def c6HeaderBoth (t1 t2 : OutputSectionType) : String :=
  ".a " ++ genOSType t1 ++ " 0x4 " ++ genOSType t2 ++ " : \x7b \x7d"

/-- An output-section header with a type tag only after the VMA address. -/
def c6HeaderSecond (t2 : OutputSectionType) : String :=
  ".a 0x4 " ++ genOSType t2 ++ " : \x7b \x7d"



/-! ## Supporting lemmas -/

/-- A command without `Insert` always renders. -/
theorem genCommand_some_of_noInsert (c : Command) (h : noInsertCmd c = true) :
    ∃ x, genCommand c = some x := by
  cases c with
  | call name args => exact ⟨_, rfl⟩
  | includeFile file => exact ⟨_, rfl⟩
  | insert o sec => simp [noInsertCmd] at h

/-- A section command without `Insert` always renders. -/
theorem genSectionCommand_some_of_noInsert (sc : SectionCommand)
    (h : noInsertSC sc = true) : ∃ x, genSectionCommand sc = some x := by
  cases sc with
  | statement st => exact ⟨_, rfl⟩
  | command c =>
    obtain ⟨x, hx⟩ := genCommand_some_of_noInsert c h
    exact ⟨x, hx⟩
  | outputSection o => exact ⟨_, rfl⟩

/-- A `SECTIONS` body without `Insert` always renders. -/
theorem genSCChunks_some_of_noInsert :
    ∀ l : List SectionCommand, l.all noInsertSC = true → ∃ x, genSCChunks l = some x := by
  intro l
  induction l with
  | nil => intro _; exact ⟨"", rfl⟩
  | cons sc rest ih =>
    intro h
    rw [List.all_cons, Bool.and_eq_true] at h
    obtain ⟨x, hx⟩ := genSectionCommand_some_of_noInsert sc h.1
    obtain ⟨y, hy⟩ := ih h.2
    exact ⟨indentAllBy 2 x ++ "\n" ++ y, by simp [genSCChunks, hx, hy]⟩

/-- A root item without `Insert` always renders. -/
theorem genRootChunk_some_of_noInsert (it : RootItem) (h : noInsertItem it = true) :
    ∃ x, genRootChunk it = some x := by
  cases it with
  | statement st => exact ⟨_, rfl⟩
  | command c =>
    obtain ⟨x, hx⟩ := genCommand_some_of_noInsert c h
    exact ⟨x ++ "\n", by simp [genRootChunk, hx]⟩
  | memory regions => exact ⟨_, rfl⟩
  | sections l =>
    obtain ⟨x, hx⟩ := genSCChunks_some_of_noInsert l h
    exact ⟨"SECTIONS \x7b\n" ++ x ++ "\x7d\n\n", by simp [genRootChunk, hx]⟩

/-! ## Claim theorems -/

/-- Claim C1 (code bug): the round trip `parse(generate(parse(D))) =
parse(D)` fails on a document whose output section has an `AT>` load-memory
region: the generator renders the trailer as `AT>ram:` with a stray colon,
and the re-parse stops there, returning the empty root list with the whole
text unconsumed instead of the original tree. -/
theorem c1_round_trip_broken_on_lma_region :
    parseLd atDoc = .ok [] atTree ∧
    genItems atTree = some atGen ∧
    parseLd atGen = .ok atGen.data [] ∧
    parseLd atGen ≠ parseLd atDoc := by
  refine ⟨rfl, rfl, rfl, ?_⟩
  intro h
  rw [show parseLd atGen = .ok atGen.data [] from rfl,
    show parseLd atDoc = .ok [] atTree from rfl] at h
  injection h with h1 h2
  exact List.noConfusion h2

/-- Claim C3 (code bug): on a malformed input the whole-document parser
returns a typed error, but the `lib.rs` `parse` entry point `unwrap`s that
result, which panics (modelled as `none`) instead of returning the error to
the caller. -/
theorem c3_lib_parse_panics_on_malformed_input :
    commandsScriptF ("MEMORY \x7b".length + 64) "MEMORY \x7b".data = .recov ∧
    libParse "MEMORY \x7b" = none ∧
    libParse "" = some () := ⟨rfl, rfl, rfl⟩

/-- Claim C4 (code bug): generation is not idempotent through a parse
cycle.  For the parse-reachable tree `atTree` (with an `AT>` load-memory
region), `generate` renders the trailer as `AT>ram:`; re-parsing that text
yields the empty list, which generates `""`, not `generate(T)`. -/
theorem c4_generation_not_idempotent :
    parseLd atDoc = .ok [] atTree ∧
    genItems atTree = some atGen ∧
    (match parseLd atGen with
      | .ok _ items => genItems items
      | _ => none) = some "" ∧
    atGen ≠ "" := by
  refine ⟨rfl, rfl, rfl, ?_⟩
  decide

/-- Claim C2, counterexample: a parsed tree containing an `Insert` command
is reachable from `parse`, and `generate` on it reaches the
`unimplemented!()` panic (modelled as `none`) instead of returning a
string. -/
theorem c2_insert_generation_panics :
    parseLd "INSERT AFTER .text;" = .ok [] [ .command (.insert .after ".text") ] ∧
    genItems [ .command (.insert .after ".text") ] = none := ⟨rfl, rfl⟩

/-- Claim C2 (amended): generation never fails on a tree containing no
`Insert` command — for every such root-item list, `generate` returns a
string. -/
theorem c2_generate_total_without_insert :
    ∀ items : List RootItem, noInsertItems items = true → ∃ x, genItems items = some x := by
  intro items
  induction items with
  | nil => intro _; exact ⟨"", rfl⟩
  | cons it rest ih =>
    intro h
    rw [noInsertItems, List.all_cons, Bool.and_eq_true] at h
    obtain ⟨x, hx⟩ := genRootChunk_some_of_noInsert it h.1
    obtain ⟨y, hy⟩ := ih h.2
    exact ⟨x ++ y, by simp [genItems, hx, hy]⟩

/-- Witness for C2's amended theorem at a concrete tree. -/
theorem c2_generate_total_without_insert_witness :
    ∃ x, genItems [ .memory [ ⟨"RAM", 0, 1024⟩ ], .command (.call "ENTRY" [ .ident "main" ]) ]
      = some x :=
  c2_generate_total_without_insert _ (by decide)

/-- Claim C5, counterexample: the default (empty) builder assembles the
two-item list `[Memory [], Sections []]`, but its generated text — empty
`MEMORY`/`SECTIONS` blocks — does not re-parse to that list: the parser
requires at least one region/section inside a block, so the parse returns
the empty list with the whole text unconsumed. -/
theorem c5_empty_builder_breaks_round_trip :
    LinkerScriptBuilder.generateB {} = some emptyBuilderGen ∧
    LinkerScriptBuilder.assembledItems {} = [ .memory [], .sections [] ] ∧
    parseLd emptyBuilderGen = .ok emptyBuilderGen.data [] ∧
    parseLd emptyBuilderGen ≠ .ok [] (LinkerScriptBuilder.assembledItems {}) := by
  refine ⟨rfl, rfl, rfl, ?_⟩
  intro h
  rw [show parseLd emptyBuilderGen = .ok emptyBuilderGen.data [] from rfl,
    show LinkerScriptBuilder.assembledItems {} = [ .memory [], .sections [] ] from rfl] at h
  injection h with h1 h2
  exact List.noConfusion h2

/-- Claim C5 (amended): for builders whose memory and section blocks are
non-empty (here a representative builder with one region, one output
section holding an input-section command, one command and one statement),
generating and re-parsing succeeds completely and yields exactly the
assembled root-item list. -/
theorem c5_builder_round_trip_nonempty :
    LinkerScriptBuilder.generateB builder0 = some builder0Gen ∧
    parseLd builder0Gen = .ok [] (LinkerScriptBuilder.assembledItems builder0) := ⟨rfl, rfl⟩

/-- Hexadecimal digit characters are decimal digits or `A`–`F`. -/
theorem hexDigitU_class (m : Nat) (hm : m < 16) :
    (hexDigitU m).isDigit = true ∨ ('A' ≤ hexDigitU m ∧ hexDigitU m ≤ 'F') := by
  interval_cases m <;> decide

/-- Every character `hexCore` emits is a decimal digit or `A`–`F`. -/
theorem hexCore_class :
    ∀ (f n : Nat) (acc : List Char),
      (∀ c ∈ acc, c.isDigit = true ∨ ('A' ≤ c ∧ c ≤ 'F')) →
      ∀ c ∈ hexCore f n acc, c.isDigit = true ∨ ('A' ≤ c ∧ c ≤ 'F') := by
  intro f
  induction f with
  | zero => intro n acc hacc c hc; exact hacc c hc
  | succ f ih =>
    intro n acc hacc c hc
    rw [hexCore] at hc
    by_cases h : n < 16
    · rw [if_pos h] at hc
      rcases List.mem_cons.mp hc with rfl | hmem
      · exact hexDigitU_class n h
      · exact hacc c hmem
    · rw [if_neg h] at hc
      refine ih (n / 16) (hexDigitU (n % 16) :: acc) ?_ c hc
      intro d hd
      rcases List.mem_cons.mp hd with rfl | hmem
      · exact hexDigitU_class _ (Nat.mod_lt n (by norm_num))
      · exact hacc d hmem

/-- Every character of `hexUp n` is a decimal digit or an uppercase hex
letter. -/
theorem hexUp_class (n : Nat) :
    ∀ c ∈ (hexUp n).data, c.isDigit = true ∨ ('A' ≤ c ∧ c ≤ 'F') := by
  intro c hc
  exact hexCore_class (n + 1) n [] (by intro d hd; cases hd) c hc

/-- Claim C8: region rendering.  The length renders as `<n>M` when evenly
divisible by one mebibyte, else `<n>K` when evenly divisible by one
kibibyte, else bare decimal — in particular 65536 renders as `64K`,
1048576 as `1M` and 1000 as `1000` — and the origin renders as `0x`
followed by uppercase hexadecimal digits. -/
theorem c8_region_rendering (r : Region) :
    (r.length % (1024 * 1024) = 0 →
      genRegion r = r.name ++ " : ORIGIN = 0x" ++ hexUp r.origin ++ ", LENGTH = "
        ++ (toString (r.length / (1024 * 1024)) ++ "M")) ∧
    (¬ r.length % (1024 * 1024) = 0 → r.length % 1024 = 0 →
      genRegion r = r.name ++ " : ORIGIN = 0x" ++ hexUp r.origin ++ ", LENGTH = "
        ++ (toString (r.length / 1024) ++ "K")) ∧
    (¬ r.length % 1024 = 0 →
      genRegion r = r.name ++ " : ORIGIN = 0x" ++ hexUp r.origin ++ ", LENGTH = "
        ++ toString r.length) ∧
    (∀ c ∈ (hexUp r.origin).data, c.isDigit = true ∨ ('A' ≤ c ∧ c ≤ 'F')) ∧
    genRegion { r with length := 65536 } =
      r.name ++ " : ORIGIN = 0x" ++ hexUp r.origin ++ ", LENGTH = " ++ "64K" ∧
    genRegion { r with length := 1048576 } =
      r.name ++ " : ORIGIN = 0x" ++ hexUp r.origin ++ ", LENGTH = " ++ "1M" ∧
    genRegion { r with length := 1000 } =
      r.name ++ " : ORIGIN = 0x" ++ hexUp r.origin ++ ", LENGTH = " ++ "1000" := by
  refine ⟨?_, ?_, ?_, hexUp_class r.origin, ?_, ?_, ?_⟩
  · intro h
    rw [genRegion, if_pos h]
  · intro hM hK
    rw [genRegion, if_neg hM, if_pos hK]
  · intro hK
    have hM : ¬ r.length % (1024 * 1024) = 0 := fun h0 => hK (by omega)
    rw [genRegion, if_neg hM, if_neg hK]
  · rw [genRegion]
    norm_num
    congr 1
  · rw [genRegion]
    norm_num
    congr 1
  · rw [genRegion]
    norm_num
    congr 1

/-- Witness for C8 at a concrete region. -/
theorem c8_region_rendering_witness :
    genRegion ⟨"RAM", 10, 2048⟩ = "RAM" ++ " : ORIGIN = 0x" ++ hexUp 10 ++ ", LENGTH = "
      ++ (toString (2048 / 1024) ++ "K") :=
  (c8_region_rendering ⟨"RAM", 10, 2048⟩).2.1 (by decide) (by decide)

/-- An input accepted by `wsOnly` is consumed entirely by the skipper. -/
theorem wsOnly_optSpace : ∀ (n : Nat) (s : Inp), wsOnly n s = true → optSpace n s = [] := by
  intro n
  induction n with
  | zero =>
    intro s h
    cases s with
    | nil => rfl
    | cons c cs => exact absurd h (by simp [wsOnly])
  | succ f ih =>
    intro s h
    cases s with
    | nil => rfl
    | cons c cs =>
      rw [wsOnly] at h
      rw [optSpace]
      by_cases h1 : isWsChar c = true
      · rw [if_pos h1] at h ⊢
        exact ih _ h
      · rw [if_neg h1] at h ⊢
        by_cases h2 : c = '/'
        · rw [if_pos h2] at h ⊢
          by_cases h3 : cs.headD ' ' = '/'
          · rw [if_pos h3] at h ⊢
            exact ih _ h
          · rw [if_neg h3] at h ⊢
            by_cases h4 : cs.headD ' ' = '*'
            · rw [if_pos h4] at h ⊢
              cases hdb : dropBlock cs.tail with
              | some rest =>
                simp only [hdb] at h ⊢
                exact ih _ h
              | none =>
                simp only [hdb] at h
                exact Bool.noConfusion h
            · rw [if_neg h4] at h
              exact absurd h (by simp)
        · rw [if_neg h2] at h
          exact absurd h (by simp)

/-- On empty input every root-item alternative fails recoverably, for any
fuel. -/
theorem rootItemF_nil (f : Nat) : rootItemF f [] = .recov := rfl

/-- Claim C9: empty-document acceptance.  For every input made only of
whitespace and comments (including the empty input), the root parse
succeeds with the empty top-level list and no remaining input, for every
fuel value and in particular for the `parse` entry point. -/
theorem c9_empty_document (s : String) (f : Nat)
    (h : wsOnly s.data.length s.data = true) :
    parseF f s.data = .ok [] [] ∧ parseLd s = .ok [] [] := by
  have hopt : optSpaceL s.data = [] := wsOnly_optSpace _ _ h
  have main : ∀ g : Nat, parseF g s.data = .ok [] [] := by
    intro g
    have hw : wscP (rootItemF g) s.data = .recov := by
      rw [wscP, hopt, rootItemF_nil]
    have hm : many1F g (wscP (rootItemF g)) s.data = .recov := by
      rw [many1F, hw]
      rfl
    rw [parseF, alt2, hm, hopt]
  exact ⟨main f, main _⟩

/-- Witness for C9 at a concrete comment-and-whitespace input. -/
theorem c9_empty_document_witness :
    parseLd "  /* hello */   // tail" = .ok [] [] :=
  (c9_empty_document "  /* hello */   // tail" 0 (by decide)).2

/-- Claim C10: `with_adjacent_region` on a builder with at least one region
appends exactly one region whose origin is the `u64` sum of the last
region's origin and length (wrapping modulo `2 ^ 64`; the exact sum
whenever that sum is representable), leaving the existing regions
unchanged; on a builder with no regions it reaches the `unwrap` panic
(modelled as `none`). -/
theorem c10_with_adjacent_region (mb : MemoryBuilder) (name : String) (len : Nat) :
    (∀ last, mb.regions.getLast? = some last →
      mb.withAdjacentRegion name len =
        some ⟨mb.regions ++ [ ⟨name, (last.origin + last.length) % 2 ^ 64, len⟩ ]⟩) ∧
    (∀ last, mb.regions.getLast? = some last → last.origin + last.length < 2 ^ 64 →
      mb.withAdjacentRegion name len =
        some ⟨mb.regions ++ [ ⟨name, last.origin + last.length, len⟩ ]⟩) ∧
    (mb.regions = [] → mb.withAdjacentRegion name len = none) ∧
    (mb.regions ≠ [] → ∃ last, mb.regions.getLast? = some last) := by
  refine ⟨?_, ?_, ?_, ?_⟩
  · intro last h
    rw [MemoryBuilder.withAdjacentRegion, h]
  · intro last h hlt
    rw [MemoryBuilder.withAdjacentRegion, h]
    show some (⟨mb.regions ++ [ ⟨name, (last.origin + last.length) % 2 ^ 64, len⟩ ]⟩ :
      MemoryBuilder) = _
    rw [Nat.mod_eq_of_lt hlt]
  · intro h
    simp [MemoryBuilder.withAdjacentRegion, h]
  · intro h
    exact Option.isSome_iff_exists.mp (List.getLast?_isSome.mpr h)

/-- Witness for C10 at a concrete one-region builder, through the
no-overflow conjunct. -/
theorem c10_with_adjacent_region_witness :
    MemoryBuilder.withAdjacentRegion ⟨[ ⟨"A", 0, 4⟩ ]⟩ "B" 8 =
      some ⟨[ ⟨"A", 0, 4⟩, ⟨"B", 4, 8⟩ ]⟩ :=
  (c10_with_adjacent_region ⟨[ ⟨"A", 0, 4⟩ ]⟩ "B" 8).2.1 ⟨"A", 0, 4⟩ rfl (by norm_num)

/-- Claim C6: the output-section type tag obeys first-occurrence-wins.  For
every pair of type tags, a header carrying tags in both positions stores
the first tag as the single `sType`, and a header carrying only the
second-position tag stores that one; no merging or validation relates the
two positions. -/
theorem c6_stype_first_occurrence_wins (t1 t2 : OutputSectionType) :
    outputScF 64 (c6HeaderBoth t1 t2).data =
      .ok [] (.outputSection { name := ".a", vmaAddress := some (.num 4), sType := some t1 }) ∧
    outputScF 64 (c6HeaderSecond t2).data =
      .ok [] (.outputSection { name := ".a", vmaAddress := some (.num 4), sType := some t2 }) := by
  cases t1 <;> cases t2 <;> exact ⟨rfl, rfl⟩

/-- Witness for C6 at concrete type tags. -/
theorem c6_stype_first_occurrence_wins_witness :
    outputScF 64 (c6HeaderBoth .noLoad .copy).data =
      .ok [] (.outputSection { name := ".a", vmaAddress := some (.num 4), sType := some .noLoad }) ∧
    outputScF 64 (c6HeaderSecond .copy).data =
      .ok [] (.outputSection { name := ".a", vmaAddress := some (.num 4), sType := some .copy }) :=
  c6_stype_first_occurrence_wins .noLoad .copy

/-! ## No-panic lemmas for the section-pattern grammar -/

/-- `pbind` never panics when neither part does. -/
theorem pbind_ne_vio {α β : Type} {r : ParseRes α} {k : Inp → α → ParseRes β}
    (h1 : r ≠ .vio) (h2 : ∀ rest a, k rest a ≠ .vio) : pbind r k ≠ .vio := by
  cases r with
  | ok rest a => exact h2 rest a
  | recov => simp [pbind]
  | fatal => simp [pbind]
  | vio => exact absurd rfl h1

/-- `tag` never panics. -/
theorem tagS_ne_vio (t : String) : ∀ s, tagS t s ≠ .vio := by
  intro s
  rw [tagS]
  split <;> simp

/-- `tag` returns exactly its own text. -/
theorem tagS_ok_val {t : String} {s r : Inp} {v : String}
    (h : tagS t s = .ok r v) : v = t := by
  rw [tagS] at h
  split at h
  · injection h with h1 h2
    exact h2.symm
  · exact ParseRes.noConfusion h

/-- `takeWhile1P` never panics. -/
theorem takeWhile1P_ne_vio (f : Char → Bool) : ∀ s, takeWhile1P f s ≠ .vio := by
  intro s
  rw [takeWhile1P]
  split <;> simp

/-- `cut` never panics when its parser does not. -/
theorem cutP_ne_vio {α : Type} {p : P α} (h : ∀ s, p s ≠ .vio) :
    ∀ s, cutP p s ≠ .vio := by
  intro s
  rw [cutP]
  cases hp : p s with
  | ok r a => simp
  | recov => simp
  | fatal => simp
  | vio => exact absurd hp (h s)

/-- `opt` never panics when its parser does not. -/
theorem optP_ne_vio {α : Type} {p : P α} (h : ∀ s, p s ≠ .vio) :
    ∀ s, optP p s ≠ .vio := by
  intro s
  rw [optP]
  cases hp : p s with
  | ok r a => simp
  | recov => simp
  | fatal => simp
  | vio => exact absurd hp (h s)

/-- `wsc!` never panics when its parser does not. -/
theorem wscP_ne_vio {α : Type} {p : P α} (h : ∀ s, p s ≠ .vio) :
    ∀ s, wscP p s ≠ .vio := by
  intro s
  rw [wscP]
  cases hp : p (optSpaceL s) with
  | ok r a => simp
  | recov => simp
  | fatal => simp
  | vio => exact absurd hp (h _)

/-- `many0` never panics when its element parser does not. -/
theorem many0F_ne_vio {α : Type} {p : P α} (h : ∀ s, p s ≠ .vio) :
    ∀ (f : Nat) (s : Inp), many0F f p s ≠ .vio := by
  intro f
  induction f with
  | zero => intro s; simp [many0F]
  | succ f ih =>
    intro s
    show (match p s with
      | .recov => ParseRes.ok s []
      | .fatal => ParseRes.fatal
      | .vio => ParseRes.vio
      | .ok rest a =>
        match many0F f p rest with
        | .ok rest2 l => ParseRes.ok rest2 (a :: l)
        | e => e) ≠ ParseRes.vio
    cases hp : p s with
    | recov => simp
    | fatal => simp
    | vio => exact absurd hp (h s)
    | ok rest a =>
      cases hm : many0F f p rest with
      | ok r2 l => simp [hm]
      | recov => simp [hm]
      | fatal => simp [hm]
      | vio => exact absurd hm (ih rest)

/-- `many1` never panics when its element parser does not. -/
theorem many1F_ne_vio {α : Type} {p : P α} (h : ∀ s, p s ≠ .vio) :
    ∀ (f : Nat) (s : Inp), many1F f p s ≠ .vio := by
  intro f s
  rw [many1F]
  refine pbind_ne_vio (h s) ?_
  intro rest a
  rw [pmap]
  refine pbind_ne_vio (many0F_ne_vio h f rest) ?_
  intro r2 l
  simp

/-- `alt` never panics when no alternative does. -/
theorem altL_ne_vio {α : Type} :
    ∀ ps : List (P α), (∀ p ∈ ps, ∀ s, p s ≠ .vio) → ∀ s, altL ps s ≠ .vio := by
  intro ps
  induction ps with
  | nil => intro _ s; simp [altL]
  | cons p ps ih =>
    intro h s
    rw [altL, alt2]
    cases hp : p s with
    | recov => exact ih (fun q hq => h q (List.mem_cons_of_mem p hq)) s
    | ok r a => simp
    | fatal => simp
    | vio => exact absurd hp (h p (List.mem_cons_self p ps) s)

/-- A successful `alt` comes from one of its alternatives. -/
theorem altL_ok {α : Type} :
    ∀ (ps : List (P α)) (s r : Inp) (v : α),
      altL ps s = .ok r v → ∃ p, p ∈ ps ∧ p s = .ok r v := by
  intro ps
  induction ps with
  | nil =>
    intro s r v h
    simp only [altL] at h
    exact ParseRes.noConfusion h
  | cons p ps ih =>
    intro s r v h
    rw [altL, alt2] at h
    cases hp : p s with
    | recov =>
      rw [hp] at h
      obtain ⟨q, hq, hqe⟩ := ih s r v h
      exact ⟨q, List.mem_cons_of_mem p hq, hqe⟩
    | ok r2 a => rw [hp] at h; exact ⟨p, List.mem_cons_self p ps, hp.trans h⟩
    | fatal => rw [hp] at h; exact ParseRes.noConfusion h
    | vio => rw [hp] at h; exact ParseRes.noConfusion h

/-- The glob-pattern lexer never panics. -/
theorem patternP_ne_vio : ∀ s, patternP s ≠ .vio := takeWhile1P_ne_vio isPatternChar

/-- `sorted_sp` never panics: every keyword the alternative list can return
is covered by the keyword match, so the `panic!` default is unreachable. -/
theorem sortedSpP_ne_vio : ∀ s, sortedSpP s ≠ .vio := by
  intro s
  rw [sortedSpP]
  cases hA : altL [tagS "SORT_BY_NAME", tagS "SORT_BY_ALIGNMENT",
      tagS "SORT_BY_INIT_PRIORITY", tagS "SORT_NONE", tagS "SORT"] s with
  | recov => simp [pbind]
  | fatal => simp [pbind]
  | vio =>
    refine absurd hA (altL_ne_vio _ ?_ s)
    intro p hp
    fin_cases hp <;> exact tagS_ne_vio _
  | ok r kw =>
    obtain ⟨p, hp, hpe⟩ := altL_ok _ _ _ _ hA
    simp only [pbind]
    fin_cases hp <;>
      (rw [tagS_ok_val hpe]
       refine pbind_ne_vio (cutP_ne_vio (wscP_ne_vio (tagS_ne_vio "(")) r) ?_
       intro r1 _
       refine pbind_ne_vio (cutP_ne_vio patternP_ne_vio r1) ?_
       intro r2 inner
       refine pbind_ne_vio (cutP_ne_vio (tagS_ne_vio ")") _) ?_
       intro r4 _
       simp)

/-- `exclude_file_sp` never panics when its nested pattern parser does
not. -/
theorem excludeFileSpP_ne_vio {inner : P SectionPattern}
    (h : ∀ s, inner s ≠ .vio) (f : Nat) : ∀ s, excludeFileSpP f inner s ≠ .vio := by
  intro s
  rw [excludeFileSpP]
  refine pbind_ne_vio (tagS_ne_vio "EXCLUDE_FILE" s) ?_
  intro r _
  refine pbind_ne_vio (tagS_ne_vio "(" _) ?_
  intro r1 _
  refine pbind_ne_vio (cutP_ne_vio (many1F_ne_vio (wscP_ne_vio patternP_ne_vio) f) r1) ?_
  intro r2 files
  refine pbind_ne_vio (cutP_ne_vio (tagS_ne_vio ")") r2) ?_
  intro r3 _
  refine pbind_ne_vio (cutP_ne_vio h _) ?_
  intro r4 pat
  simp

/-- `simple_sp` never panics. -/
theorem simpleSpP_ne_vio : ∀ s, simpleSpP s ≠ .vio := by
  intro s
  rw [simpleSpP, pmap]
  refine pbind_ne_vio (patternP_ne_vio s) ?_
  intro r a
  simp

/-- `section_pattern` never panics, for any fuel. -/
theorem sectionPatternF_ne_vio : ∀ (f : Nat) (s : Inp), sectionPatternF f s ≠ .vio := by
  intro f
  induction f with
  | zero => intro s; simp [sectionPatternF]
  | succ f ih =>
    intro s
    rw [sectionPatternF]
    refine altL_ne_vio _ ?_ s
    intro p hp
    fin_cases hp
    · exact excludeFileSpP_ne_vio ih f
    · exact sortedSpP_ne_vio
    · exact simpleSpP_ne_vio

/-- The optional section-pattern list never panics. -/
theorem sectionListP_ne_vio (f : Nat) : ∀ s, sectionListP f s ≠ .vio := by
  intro s1
  rw [sectionListP]
  refine pbind_ne_vio (wscP_ne_vio (tagS_ne_vio "(") s1) ?_
  intro r1 _
  refine pbind_ne_vio (many1F_ne_vio (wscP_ne_vio (sectionPatternF_ne_vio f)) f r1) ?_
  intro r2 secs
  refine pbind_ne_vio (wscP_ne_vio (tagS_ne_vio ")") r2) ?_
  intro r3 _
  simp

/-- `input_osc` never panics. -/
theorem inputOscP_ne_vio (f : Nat) : ∀ s, inputOscP f s ≠ .vio := by
  intro s
  rw [inputOscP]
  refine pbind_ne_vio (sectionPatternF_ne_vio f s) ?_
  intro r file
  refine pbind_ne_vio (optP_ne_vio (sectionListP_ne_vio f) _) ?_
  intro r4 osecs
  simp

/-- A successful `input_osc` always yields the `InputSection` variant. -/
theorem inputOscP_ok_shape {f : Nat} {s rest : Inp} {v : OutputSectionCommand}
    (h : inputOscP f s = .ok rest v) :
    ∃ fp secs, v = .inputSection fp secs := by
  simp only [inputOscP] at h
  cases hA : sectionPatternF f s with
  | recov => simp [hA, pbind] at h
  | fatal => simp [hA, pbind] at h
  | vio => simp [hA, pbind] at h
  | ok r file =>
    rw [hA] at h
    simp only [pbind] at h
    cases hB : optP (sectionListP f) (optSpaceL r) with
    | recov => simp [hB, pbind] at h
    | fatal => simp [hB, pbind] at h
    | vio => simp [hB, pbind] at h
    | ok r4 osecs =>
      rw [hB] at h
      simp only [pbind] at h
      injection h with h1 h2
      exact ⟨file, osecs.getD [], h2.symm⟩

/-- `keep_osc` never panics: its inner parse is exactly `input_osc`, whose
success is always the `InputSection` variant, so the `panic!` default of
the reclassifying match is unreachable. -/
theorem keepOscP_ne_vio (f : Nat) : ∀ s, keepOscP f s ≠ .vio := by
  intro s
  rw [keepOscP]
  refine pbind_ne_vio (tagS_ne_vio "KEEP" s) ?_
  intro r _
  refine pbind_ne_vio (wscP_ne_vio (tagS_ne_vio "(") r) ?_
  intro r1 _
  cases hI : inputOscP f r1 with
  | recov => simp [pbind]
  | fatal => simp [pbind]
  | vio => exact absurd hI (inputOscP_ne_vio f r1)
  | ok r2 inner =>
    simp only [pbind]
    obtain ⟨fp, secs, rfl⟩ := inputOscP_ok_shape hI
    refine pbind_ne_vio (wscP_ne_vio (tagS_ne_vio ")") r2) ?_
    intro r3 _
    simp

/-- A successful `keep_osc` always yields the `KeepInputSection`
variant. -/
theorem keepOscP_ok_shape {f : Nat} {s rest : Inp} {v : OutputSectionCommand}
    (h : keepOscP f s = .ok rest v) :
    ∃ fp secs, v = .keepInputSection fp secs := by
  rw [keepOscP] at h
  cases hK : tagS "KEEP" s with
  | recov => rw [hK] at h; exact ParseRes.noConfusion h
  | fatal => rw [hK] at h; exact ParseRes.noConfusion h
  | vio => rw [hK] at h; exact ParseRes.noConfusion h
  | ok r kw =>
    rw [hK] at h
    simp only [pbind] at h
    cases hO : wscP (tagS "(") r with
    | recov => rw [hO] at h; exact ParseRes.noConfusion h
    | fatal => rw [hO] at h; exact ParseRes.noConfusion h
    | vio => rw [hO] at h; exact ParseRes.noConfusion h
    | ok r1 op =>
      rw [hO] at h
      simp only [pbind] at h
      cases hI : inputOscP f r1 with
      | recov => rw [hI] at h; exact ParseRes.noConfusion h
      | fatal => rw [hI] at h; exact ParseRes.noConfusion h
      | vio => rw [hI] at h; exact ParseRes.noConfusion h
      | ok r2 inner =>
        rw [hI] at h
        simp only [pbind] at h
        obtain ⟨fp, secs, rfl⟩ := inputOscP_ok_shape hI
        cases hC : wscP (tagS ")") r2 with
        | recov => rw [hC] at h; exact ParseRes.noConfusion h
        | fatal => rw [hC] at h; exact ParseRes.noConfusion h
        | vio => rw [hC] at h; exact ParseRes.noConfusion h
        | ok r3 cp =>
          rw [hC] at h
          simp only [pbind] at h
          injection h with h1 h2
          exact ⟨fp, secs, h2.symm⟩

/-- Claim C7: `KEEP` wraps exactly one input-section.  The concrete input
`KEEP(SORT_BY_NAME(*)(.ctors))` parses to a `KeepInputSection` with file
pattern `SortByName "*"` and section list `[Simple ".ctors"]`; `keep_osc`
never panics and never produces a variant other than `KeepInputSection`,
and ill-formed `KEEP` content makes the parse fail, as on `KEEP(;)`. -/
theorem c7_keep_wraps_one_input_section :
    keepOscP 64 "KEEP(SORT_BY_NAME(*)(.ctors))".data =
      .ok [] (.keepInputSection (.sortByName "*") [ .simple ".ctors" ]) ∧
    (∀ (f : Nat) (s : Inp), keepOscP f s ≠ .vio) ∧
    (∀ (f : Nat) (s rest : Inp) (v : OutputSectionCommand),
      keepOscP f s = .ok rest v → ∃ fp secs, v = .keepInputSection fp secs) ∧
    keepOscP 64 "KEEP(;)".data = .recov := by
  refine ⟨rfl, keepOscP_ne_vio, ?_, rfl⟩
  intro f s rest v h
  exact keepOscP_ok_shape h

/-- Witness for C7: the no-panic and shape facts applied at a concrete
input. -/
theorem c7_keep_wraps_one_input_section_witness :
    keepOscP 8 "KEEP(*(.text))".data ≠ .vio ∧
    (∃ fp secs, (OutputSectionCommand.keepInputSection (.simple "*") [ .simple ".text" ])
        = .keepInputSection fp secs) :=
  ⟨c7_keep_wraps_one_input_section.2.1 8 _,
    c7_keep_wraps_one_input_section.2.2.1 8 "KEEP(*(.text))".data [] _ (by rfl)⟩

end Ld
